import Mathlib

/-!
# Verification of the neon runtime boundary layer

A shallow embedding of the core of the neon native-binding layer:
the asynchronous task bridge (`neon_task.h`), the cross-thread event
handler (`neon_event.h`), the class/instance construction protocol and
instance finalization (`neon_class_metadata.h`), the precomputed class
error strings (`neon_string.h` / `ClassMetadata::SetName`), handle
identity comparison (`Neon_Mem_SameHandle`) and buffer allocation
(`Neon_Buffer_New` / `Neon_Buffer_Uninitialized`), together with proofs
of the behavioural properties stated about them.

JS values are modelled abstractly: `JsValue.null` and `JsValue.undefined`
are the distinguished constants the C++ code materialises via
`v8::Null` / `v8::Undefined`; every other value is wrapped opaquely.
-/

namespace Neon

/-- An abstract JS value. `mk n` stands for an arbitrary engine value
distinct from `null` and `undefined`; its payload is an opaque tag. -/
inductive JsValue where
  | null : JsValue
  | undefined : JsValue
  | mk : Nat → JsValue
deriving DecidableEq, Repr

/-! ## Task delivery (`Task::complete` in `neon_task.h`)

`Task::complete` runs on the runtime thread after the background
`perform` phase.  It initialises `argv[0] = null`, `argv[1] = undefined`,
invokes the `complete_` callback inside a `v8::TryCatch`, overwrites
`argv[0]` with the caught exception if one was thrown and `argv[1]` with
the completion value otherwise, and then makes exactly one call to the
saved JS callback with those two arguments.

The outcome of the `complete_` callback is modelled as `Except JsValue JsValue`:
`.error e` is "a JS exception `e` was thrown and caught by the TryCatch",
`.ok c` is "no exception; `completion` was set to `c`".  The function
returns the list of JS-callback invocations performed (each invocation is
its two-argument vector); that it is a total Lean function returning
normally on `.error` inputs reflects that the TryCatch confines the
exception to the delivery site. -/
def taskDeliver (outcome : Except JsValue JsValue) : List (JsValue × JsValue) :=
  -- argv[0] = Null, argv[1] = Undefined
  let argv0 := JsValue.null
  let argv1 := JsValue.undefined
  -- TryCatch around complete_; on catch argv[0] := exception, else argv[1] := completion
  let args :=
    match outcome with
    | .error e => (e, argv1)
    | .ok c => (argv0, c)
  -- node::MakeCallback(isolate, global, callback, 2, argv): the single delivery
  [args]

/-! ## Buffer allocation (`Neon_Buffer_New`, `Neon_Buffer_Uninitialized`)

Both entry points call `Nan::NewBuffer(len)`, which either fails (the
function returns `false`) or yields a fresh buffer of `len` bytes whose
initial contents are whatever bytes the allocator happened to hand out.
The allocator is modelled as a function from the requested length to
`Option` of the raw byte-at-index contents.  `Neon_Buffer_New`
additionally runs `memset(data, 0, len)` over the whole buffer;
`Neon_Buffer_Uninitialized` returns the buffer as allocated. -/
def bufferNew (alloc : Nat → Option (Nat → Nat)) (len : Nat) : Option (List Nat) :=
  match alloc len with
  | none => none
  | some _raw => some (List.replicate len 0)

/-- `Neon_Buffer_Uninitialized`: identical to `bufferNew` except that the
`memset` is absent, so the bytes of the buffer are the raw bytes from the allocator. -/
def bufferUninitialized (alloc : Nat → Option (Nat → Nat)) (len : Nat) :
    Option (List Nat) :=
  match alloc len with
  | none => none
  | some raw => some ((List.range len).map raw)

/-! ## The cross-thread event handler (`EventHandler` in `neon_event.h`)

`EventHandler` holds a mutex-guarded vector `handlers_` of
`HandlerData { rust_callback, handler }` pairs, a `close_` flag and a
libuv `uv_async_t` wakeup handle.

* `schedule(rust_callback, handler)` appends a pair under the mutex and
  signals the wakeup.
* `close()` sets `close_ = true` and signals the wakeup.
* `complete()` (the consumer of the wakeup, on the runtime thread) loops:
  swap `handlers_` out under the mutex and invoke each pair in order,
  until the list is observed empty; then, if `close_` is set, it closes
  the `uv_async_t` and frees the `EventHandler` in the close callback.

The mutex serialises the per-operation state updates, so an execution is
a sequence of atomic operations; `ehStep` is the effect of one operation
on the state, paired with the list of handler invocations it performs
(the drain loop of `complete` runs uninterleaved here, so one swap empties the
list and the next loop iteration observes it empty and breaks). -/
structure HandlerData where
  rustCallback : Nat
  handler : Nat
deriving DecidableEq, Repr

structure EventHandlerState where
  /-- the pending `handlers_` vector, in push order -/
  handlers : List HandlerData
  /-- the `close_` flag -/
  close : Bool
  /-- the `uv_async_t` has been closed and the `EventHandler` freed -/
  released : Bool
deriving DecidableEq, Repr

inductive EHOp where
  | schedule (d : HandlerData)
  | close
  | complete
deriving DecidableEq, Repr

/-- State fresh from the `EventHandler` constructor: empty pending list,
`close_ = false`, resources held. -/
def ehInit : EventHandlerState := ⟨[], false, false⟩

/-- One atomic operation on the handler, returning the new state and the
handler invocations it performed (in invocation order). -/
def ehStep (s : EventHandlerState) : EHOp → EventHandlerState × List HandlerData
  | .schedule d => ({ s with handlers := s.handlers ++ [d] }, [])
  | .close => ({ s with close := true }, [])
  | .complete =>
    -- drain loop: swap out the whole pending vector and run each pair
    let delivered := s.handlers
    let drained := { s with handlers := ([] : List HandlerData) }
    -- after the loop observes the list empty: release iff close_ was set
    if drained.close then ({ drained with released := true }, delivered)
    else (drained, delivered)

/-- Run a sequence of operations, concatenating the invocation logs. -/
def ehRun (s : EventHandlerState) : List EHOp → EventHandlerState × List HandlerData
  | [] => (s, [])
  | op :: ops =>
    let r := ehStep s op
    let rest := ehRun r.1 ops
    (rest.1, r.2 ++ rest.2)

/-! ## Class construction protocol (`neon_class_metadata.h`, `neon.cc`)

`Neon_Class_CreateBase` installs one shared constructor trampoline,
`Neon_Class_ConstructBaseCallback`, whose `info.Data()` external wraps the
per-class `BaseClassMetadata`.  The trampoline dispatches on
`info.IsConstructCall()`: a `new` invocation runs `metadata->construct`,
a plain call runs `metadata->call`, which runs only `call_callback_`.

`BaseClassMetadata::construct` (neon-runtime variant) runs
`allocate_callback_`; a null result aborts.  Otherwise it allocates a
`BaseClassInstanceMetadata` (the InstanceRecord) owning the internals
pointer, stores that record in internal field 0 of `this`, and runs
`construct_callback_` when `construct_kernel_` is non-null.

Pointers are modelled as `Nat`, with `0` for the null pointer.  The
callbacks are modelled by their observable outcomes carried in the
metadata: the pointer `allocate_callback_` returns, whether
`construct_kernel_` is non-null, and the `bool` the construct callback
returns.  Each operation also emits an effect log recording which
callbacks ran, whether an InstanceRecord was allocated, and every write
to the internal field. -/

structure BaseClassInstanceMetadata where
  /-- the foreign-owned internals pointer bound at construction -/
  internals : Nat
deriving DecidableEq, Repr

/-- What internal field 0 of a registered-class object holds (it is an
untyped aligned pointer in the engine; the embedding keeps what it points
to). -/
inductive SlotContent where
  | record (r : BaseClassInstanceMetadata)
  | rawPtr (p : Nat)
deriving DecidableEq, Repr

structure JsObject where
  /-- internal field 0; `none` until construction writes it -/
  slot : Option SlotContent
deriving DecidableEq, Repr

structure BaseClassMetadata where
  /-- the pointer `allocate_callback_` returns (0 = null = failure) -/
  allocateResult : Nat
  /-- `construct_kernel_` is non-null, i.e. a construct callback was supplied -/
  constructKernel : Bool
  /-- the `bool` the construct callback returns when run -/
  constructResult : Bool
deriving DecidableEq, Repr

inductive CEffect where
  | allocateRun
  | constructRun
  | callRun
  | recordCreated (r : BaseClassInstanceMetadata)
  | slotWrite (c : SlotContent)
deriving DecidableEq, Repr

/-- `BaseClassMetadata::construct` from `neon-runtime/src/neon_class_metadata.h`:
run allocate; on null return abort; else create the InstanceRecord, store
it (not the raw pointer) in internal field 0, and run the construct
callback when one was supplied (its `bool` result is discarded — the
member returns `void`). -/
def neonRuntimeConstruct (md : BaseClassMetadata) (self : JsObject) :
    JsObject × List CEffect :=
  -- void *internals = allocate_callback_(&info); if (!internals) return;
  let internals := md.allocateResult
  if internals = 0 then (self, [.allocateRun])
  else
    -- new BaseClassInstanceMetadata(isolate, self, internals, drop_instance_)
    let inst : BaseClassInstanceMetadata := ⟨internals⟩
    -- self->SetAlignedPointerInInternalField(0, instance)
    let self2 : JsObject := { self with slot := some (.record inst) }
    -- if (construct_kernel_) construct_callback_(&info)
    if md.constructKernel then
      (self2, [.allocateRun, .recordCreated inst, .slotWrite (.record inst),
               .constructRun])
    else
      (self2, [.allocateRun, .recordCreated inst, .slotWrite (.record inst)])

/-- `BaseClassMetadata::construct` from the legacy
`neon-sys/src/neon_class_metadata.h` variant: same allocate gate, but the
raw internals pointer is stored in the field and the member returns a
`bool`: `false` on allocation failure, else
`!construct_kernel_ || construct_callback_(&info)`.  Result order:
(new object state, returned bool, effect log). -/
def neonSysConstruct (md : BaseClassMetadata) (self : JsObject) :
    JsObject × Bool × List CEffect :=
  let internals := md.allocateResult
  if internals = 0 then (self, false, [.allocateRun])
  else
    let self2 : JsObject := { self with slot := some (.rawPtr internals) }
    if md.constructKernel then
      (self2, md.constructResult,
        [.allocateRun, .slotWrite (.rawPtr internals), .constructRun])
    else
      (self2, true, [.allocateRun, .slotWrite (.rawPtr internals)])

/-- `Neon_Class_ConstructBaseCallback`: the shared trampoline.  On a
`new` invocation it runs `construct`; on a plain call it runs
`ClassMetadata::call`, which invokes only `call_callback_`. -/
def constructBaseCallback (md : BaseClassMetadata) (isConstructCall : Bool)
    (self : JsObject) : JsObject × List CEffect :=
  if isConstructCall then neonRuntimeConstruct md self
  else (self, [.callRun])

/-- `Neon_Class_GetInstanceInternals`: reads internal field 0 as a
`BaseClassInstanceMetadata *` and returns its internals pointer.  Reading
a field that holds no record is undefined in the C++ (`none` here). -/
def getInstanceInternals (obj : JsObject) : Option Nat :=
  match obj.slot with
  | some (.record r) => some r.internals
  | _ => none

/-! ## Instance finalization (`BaseClassInstanceMetadata`, weak callbacks)

The `BaseClassInstanceMetadata` constructor registers `FinalizeInstance`
as the weak callback of a weak global handle to the instance; the engine
fires that callback (at most once per registration) only after it has
determined the object unreachable.  `FinalizeInstance` deletes the
record; the destructor resets the weak handle (removing the
registration) and then calls `drop_(internals_)`.

Following the design note of the spec on GC-triggered finalization, the
weak registrations live in an explicit side table and collection is an
explicit event: `GCEvent.finalize o` is the engine firing the weak
callback for object `o`.  The table also logs every `dropCallback`
invocation. -/

structure InstanceTable where
  /-- live weak registrations: (object id, internals pointer) -/
  registrations : List (Nat × Nat)
  /-- `dropCallback` invocation log (internals pointers, in order) -/
  drops : List Nat
deriving DecidableEq, Repr

inductive GCEvent where
  | finalize (obj : Nat)
deriving DecidableEq, Repr

/-- The side table right after a successful construction registered the
InstanceRecord `r` for object `o` (`instance_.SetWeak(this,
FinalizeInstance, kParameter)`), with no drop performed yet. -/
def registerInstance (o : Nat) (r : BaseClassInstanceMetadata) : InstanceTable :=
  ⟨[(o, r.internals)], []⟩

/-- One engine finalization event: if a registration for the object is
live, delete the record — the destructor clears the registration and
invokes `drop_` on the internals pointer; otherwise nothing happens. -/
def gcStep (s : InstanceTable) : GCEvent → InstanceTable
  | .finalize o =>
    match s.registrations.find? (fun r => r.1 == o) with
    | some r =>
      { registrations := s.registrations.filter (fun q => q.1 != o),
        drops := s.drops ++ [r.2] }
    | none => s

def gcRun (s : InstanceTable) : List GCEvent → InstanceTable
  | [] => s
  | e :: es => gcRun (gcStep s e) es

/-! ## Precomputed class error strings (`ClassMetadata::SetName`,
`neon_string.h`)

`neon::String` is a fixed-capacity heap buffer with a write cursor;
`operator<<(const char *)` copies the literal up to its terminating NUL,
`operator<<(Slice)` copies exactly the length of the slice.  Neither
checks bounds, so the written content must fit the capacity; `Borrow()`
returns the whole `length_`-byte buffer regardless of the cursor, so the
borrowed contents are a well-defined value exactly when the writes filled
the buffer. -/

structure NeonCppString where
  /-- the `length_` given to `new String(length)` (heap buffer capacity) -/
  capacity : Nat
  /-- the bytes written through the cursor so far, in order -/
  written : List Char
deriving DecidableEq, Repr

def neonStringNew (length : Nat) : NeonCppString := ⟨length, []⟩

/-- `String& operator<<(const char *s)`: copy characters up to the first
NUL of the literal. -/
def appendCStr (s : NeonCppString) (lit : List Char) : NeonCppString :=
  ⟨s.capacity, s.written ++ lit.takeWhile (fun c => c ≠ Char.ofNat 0)⟩

/-- `String& operator<<(Slice s)`: `memcpy` exactly `s.GetLength()` bytes. -/
def appendSlice (s : NeonCppString) (sl : List Char) : NeonCppString :=
  ⟨s.capacity, s.written ++ sl⟩

/-- `Borrow()`: the full `length_`-byte buffer, defined as a value only
when the written content exactly fills it (no trailing uninitialized
bytes). -/
def borrow (s : NeonCppString) : Option (List Char) :=
  if s.written.length = s.capacity then some s.written else none

structure ClassNameStrings where
  className : NeonCppString
  thisError : NeonCppString
  callError : NeonCppString
deriving DecidableEq, Repr

/-- `ClassMetadata::SetName(Slice name)`: allocates the three buffers with
the capacities computed by `sizeof(LITERAL) - 1 + name.GetLength()` and
streams the name and the literal fragments into them. -/
def setName (name : List Char) : ClassNameStrings :=
  -- class_name_ = new String(name.GetLength()); *class_name_ << name;
  let className := appendSlice (neonStringNew name.length) name
  -- this_error_ = new String(sizeof("this is not an object of type .") - 1
  --                          + name.GetLength());
  -- *this_error_ << "this is not an object of type " << name << ".";
  let thisError :=
    appendCStr (appendSlice (appendCStr
      (neonStringNew ("this is not an object of type .".length + name.length))
      "this is not an object of type ".data) name) ".".data
  -- call_error_ = new String(sizeof(" constructor called without new.") - 1
  --                          + name.GetLength());
  -- *call_error_ << name << " constructor called without new.";
  let callError :=
    appendCStr (appendSlice
      (neonStringNew (" constructor called without new.".length + name.length))
      name) " constructor called without new.".data
  ⟨className, thisError, callError⟩

/-- `ClassMetadata::GetCallError` as used by `Neon_Class_ThrowCallError`:
a pure borrow of the string precomputed by `SetName` (no recomputation on
the throw path). -/
def getCallError (s : ClassNameStrings) : Option (List Char) := borrow s.callError

/-- `ClassMetadata::GetThisError` as used by `Neon_Class_ThrowThisError`. -/
def getThisError (s : ClassNameStrings) : Option (List Char) := borrow s.thisError

/-! ## Handle identity (`Neon_Mem_SameHandle`)

`Neon_Mem_SameHandle(v1, v2)` returns `v1 == v2` on two `v8::Local`
handles; `v8::Local` equality compares the addresses of the referenced
heap objects.  A heap object is modelled as its address (`objId`)
together with its structural contents, so the comparison reads only the
address. -/

structure JsHeapObject where
  /-- the heap address of the object: its identity -/
  objId : Nat
  /-- structural contents, irrelevant to handle equality -/
  fields : List Nat
deriving DecidableEq, Repr

def sameHandle (a b : JsHeapObject) : Bool := a.objId == b.objId

end Neon

namespace Neon

/-- C1: For every delivered Task the captured JS callback is invoked
exactly once: with `(null, completionValue)` when the `complete` callback
returns normally, and with `(exception, undefined)` when it throws; the
delivery function is total, so the exception never escapes the delivery
call site. -/
theorem task_callback_invoked_once (outcome : Except JsValue JsValue) :
    (taskDeliver outcome).length = 1 ∧
    (∀ c, outcome = .ok c →
      taskDeliver outcome = [(JsValue.null, c)]) ∧
    (∀ e, outcome = .error e →
      taskDeliver outcome = [(e, JsValue.undefined)]) := by
  refine ⟨?_, ?_, ?_⟩
  · cases outcome <;> rfl
  · intro c h; subst h; rfl
  · intro e h; subst h; rfl

/-- Witness for C1: a throwing completion delivers `(exception, undefined)`
and a normal completion delivers `(null, value)`, each in a single call. -/
theorem task_callback_invoked_once_witness :
    taskDeliver (Except.error (JsValue.mk 7)) =
      [(JsValue.mk 7, JsValue.undefined)] ∧
    taskDeliver (Except.ok (JsValue.mk 4)) =
      [(JsValue.null, JsValue.mk 4)] :=
  ⟨(task_callback_invoked_once (Except.error (JsValue.mk 7))).2.2 _ rfl,
   (task_callback_invoked_once (Except.ok (JsValue.mk 4))).2.1 _ rfl⟩

/-- C10: when `Neon_Buffer_New` succeeds it returns a buffer of exactly
the requested length with every byte zero, while
`Neon_Buffer_Uninitialized` returns a buffer of the requested length
whose bytes are exactly the raw (uninitialized) allocator contents. -/
theorem buffer_new_zeroed (alloc : Nat → Option (Nat → Nat)) (len : Nat) :
    (∀ out, bufferNew alloc len = some out →
      out.length = len ∧ ∀ b ∈ out, b = 0) ∧
    (∀ raw, alloc len = some raw →
      bufferUninitialized alloc len = some ((List.range len).map raw) ∧
      ((List.range len).map raw).length = len) := by
  constructor
  · intro out h
    unfold bufferNew at h
    cases halloc : alloc len with
    | none => rw [halloc] at h; exact absurd h (by simp)
    | some raw =>
      rw [halloc] at h
      simp only [Option.some.injEq] at h
      subst h
      refine ⟨List.length_replicate _ _, ?_⟩
      intro b hb
      exact List.eq_of_mem_replicate hb
  · intro raw h
    unfold bufferUninitialized
    rw [h]
    simp

/-- Scheduling a block of items simply accumulates them onto the pending
list, in order, without invoking any handler. -/
lemma ehRun_schedules (xs : List HandlerData) (s : EventHandlerState)
    (ops : List EHOp) :
    ehRun s (xs.map EHOp.schedule ++ ops) =
      ehRun { s with handlers := s.handlers ++ xs } ops := by
  induction xs generalizing s with
  | nil => simp
  | cons x xs ih =>
    simp only [List.map_cons, List.cons_append, ehRun, ehStep, List.append_eq]
    rw [ih]
    simp

/-- C2: scheduling a sequence of (closure, handler) pairs and then
requesting close results, after the wakeup is consumed, in every
scheduled pair being invoked exactly once in enqueue order (the
invocation log equals the scheduled sequence), the pending list empty and
the wakeup resource released; moreover, in any state, a step releases the
resource only if it was already released or the step is a `complete` in
which close had been requested and the pending list was drained empty. -/
theorem eventHandler_drains_then_releases (xs : List HandlerData) :
    (ehRun ehInit (xs.map EHOp.schedule ++ [EHOp.close, EHOp.complete])).2 = xs ∧
    (ehRun ehInit (xs.map EHOp.schedule ++ [EHOp.close, EHOp.complete])).1 =
      ⟨[], true, true⟩ ∧
    (∀ t : EventHandlerState, ∀ op : EHOp,
      (ehStep t op).1.released = true →
        t.released = true ∨
          (op = EHOp.complete ∧ t.close = true ∧
            (ehStep t op).1.handlers = [])) := by
  refine ⟨?_, ?_, ?_⟩
  · rw [ehRun_schedules]
    simp [ehRun, ehStep, ehInit]
  · rw [ehRun_schedules]
    simp [ehRun, ehStep, ehInit]
  · intro t op h
    cases op with
    | schedule d => exact Or.inl h
    | close => exact Or.inl h
    | complete =>
      by_cases hc : t.close
      · exact Or.inr ⟨rfl, hc, by simp [ehStep, hc]⟩
      · left
        simpa [ehStep, hc] using h

/-- Witness for C2: one scheduled pair is delivered exactly once, and the
release step from a drained, close-requested state satisfies the release
conditions. -/
theorem eventHandler_drains_then_releases_witness :
    (ehRun ehInit
      (([⟨1, 2⟩] : List HandlerData).map EHOp.schedule ++
        [EHOp.close, EHOp.complete])).2 = [⟨1, 2⟩] ∧
    (EHOp.complete = EHOp.complete ∧
      (⟨[], true, false⟩ : EventHandlerState).close = true ∧
      (ehStep ⟨[], true, false⟩ EHOp.complete).1.handlers = []) :=
  ⟨(eventHandler_drains_then_releases [⟨1, 2⟩]).1,
   ((eventHandler_drains_then_releases []).2.2 ⟨[], true, false⟩ EHOp.complete
      (by decide)).resolve_left (by decide)⟩

/-- Witness for C10: with an allocator handing out bytes `i + 5`,
`bufferNew` at length 3 yields `[0,0,0]` and `bufferUninitialized`
yields `[5,6,7]`. -/
theorem buffer_new_zeroed_witness :
    (bufferNew (fun _ => some (fun i => i + 5)) 3 = some [0, 0, 0] ∧
      ([0, 0, 0] : List Nat).length = 3) ∧
    bufferUninitialized (fun _ => some (fun i => i + 5)) 3 = some [5, 6, 7] := by
  have h := buffer_new_zeroed (fun _ => some (fun i => i + 5)) 3
  have h1 := h.1 [0, 0, 0] (by rfl)
  have h2 := h.2 (fun i => i + 5) rfl
  refine ⟨⟨by rfl, h1.1⟩, ?_⟩
  rw [h2.1]
  rfl

/-- C3: invoking the constructor trampoline of a registered class as a
plain call (no `new`) runs only the call callback: the object state is
unchanged (the internal field is never written) and no InstanceRecord is
created. -/
theorem plain_call_runs_only_call_callback (md : BaseClassMetadata)
    (self : JsObject) :
    constructBaseCallback md false self = (self, [CEffect.callRun]) ∧
    (∀ r, CEffect.recordCreated r ∉ (constructBaseCallback md false self).2) ∧
    (∀ c, CEffect.slotWrite c ∉ (constructBaseCallback md false self).2) ∧
    (constructBaseCallback md false self).1.slot = self.slot := by
  refine ⟨rfl, ?_, ?_, rfl⟩
  · intro r
    simp [constructBaseCallback]
  · intro c
    simp [constructBaseCallback]

/-- C4: when the allocate callback signals failure (returns null), a
`new` invocation aborts with no state change: the internal field is
unchanged, no InstanceRecord is created and the construct callback never
runs. -/
theorem allocate_failure_aborts_construction (md : BaseClassMetadata)
    (self : JsObject) (h : md.allocateResult = 0) :
    constructBaseCallback md true self = (self, [CEffect.allocateRun]) ∧
    (∀ r, CEffect.recordCreated r ∉ (constructBaseCallback md true self).2) ∧
    (∀ c, CEffect.slotWrite c ∉ (constructBaseCallback md true self).2) ∧
    CEffect.constructRun ∉ (constructBaseCallback md true self).2 ∧
    (constructBaseCallback md true self).1.slot = self.slot := by
  have hstep : constructBaseCallback md true self = (self, [CEffect.allocateRun]) := by
    simp [constructBaseCallback, neonRuntimeConstruct, h]
  refine ⟨hstep, ?_, ?_, ?_, ?_⟩
  · intro r; rw [hstep]; simp
  · intro c; rw [hstep]; simp
  · rw [hstep]; simp
  · rw [hstep]

/-- Witness for C4: construction with a null-returning allocate callback
leaves a fresh object untouched and performs only the allocate call. -/
theorem allocate_failure_aborts_construction_witness :
    constructBaseCallback ⟨0, true, true⟩ true ⟨none⟩ =
      (⟨none⟩, [CEffect.allocateRun]) ∧
    CEffect.constructRun ∉ (constructBaseCallback ⟨0, true, true⟩ true ⟨none⟩).2 :=
  ⟨(allocate_failure_aborts_construction ⟨0, true, true⟩ ⟨none⟩ rfl).1,
   (allocate_failure_aborts_construction ⟨0, true, true⟩ ⟨none⟩ rfl).2.2.2.1⟩

/-- C5: when the allocate callback succeeds, internal field 0 of the
object is set to the InstanceRecord itself — never the raw internals
pointer — and `Neon_Class_GetInstanceInternals` on the constructed object
returns exactly the pointer the allocate callback produced. -/
theorem allocate_success_slot_holds_record (md : BaseClassMetadata)
    (self : JsObject) (h : md.allocateResult ≠ 0) :
    (neonRuntimeConstruct md self).1.slot =
      some (SlotContent.record ⟨md.allocateResult⟩) ∧
    (∀ p, (neonRuntimeConstruct md self).1.slot ≠
      some (SlotContent.rawPtr p)) ∧
    getInstanceInternals (neonRuntimeConstruct md self).1 =
      some md.allocateResult := by
  have hslot : (neonRuntimeConstruct md self).1.slot =
      some (SlotContent.record ⟨md.allocateResult⟩) := by
    unfold neonRuntimeConstruct
    rw [if_neg h]
    by_cases hk : md.constructKernel <;> simp [hk]
  refine ⟨hslot, ?_, ?_⟩
  · intro p
    rw [hslot]
    simp
  · unfold getInstanceInternals
    rw [hslot]

/-- Witness for C5: constructing with internals pointer 5 stores the
record `⟨5⟩` in the field and `getInstanceInternals` reads back 5. -/
theorem allocate_success_slot_holds_record_witness :
    (neonRuntimeConstruct ⟨5, false, true⟩ ⟨none⟩).1.slot =
      some (SlotContent.record ⟨5⟩) ∧
    getInstanceInternals (neonRuntimeConstruct ⟨5, false, true⟩ ⟨none⟩).1 =
      some 5 :=
  ⟨(allocate_success_slot_holds_record ⟨5, false, true⟩ ⟨none⟩ (by decide)).1,
   (allocate_success_slot_holds_record ⟨5, false, true⟩ ⟨none⟩ (by decide)).2.2⟩

/-- C6: in a `new` invocation that passes the allocation gate, a supplied
construct callback is run and its boolean result is the overall result of
`construct`; with no construct callback supplied, the callback does not
run and `construct` returns success.  (Proved of the `bool`-returning
`BaseClassMetadata::construct`; the neon-runtime variant runs the same
callback under the same condition but returns `void`, leaving failure to
the pending JS exception.) -/
theorem construct_callback_decides_success (md : BaseClassMetadata)
    (self : JsObject) (h : md.allocateResult ≠ 0) :
    (md.constructKernel = true →
      CEffect.constructRun ∈ (neonSysConstruct md self).2.2 ∧
      (neonSysConstruct md self).2.1 = md.constructResult) ∧
    (md.constructKernel = false →
      CEffect.constructRun ∉ (neonSysConstruct md self).2.2 ∧
      (neonSysConstruct md self).2.1 = true) := by
  constructor
  · intro hk
    unfold neonSysConstruct
    rw [if_neg h]
    simp [hk]
  · intro hk
    unfold neonSysConstruct
    rw [if_neg h]
    simp [hk]

/-- Witness for C6: with a supplied construct callback returning `false`,
construction fails and the callback ran; with none supplied, construction
succeeds without running it. -/
theorem construct_callback_decides_success_witness :
    ((neonSysConstruct ⟨3, true, false⟩ ⟨none⟩).2.1 = false ∧
      CEffect.constructRun ∈ (neonSysConstruct ⟨3, true, false⟩ ⟨none⟩).2.2) ∧
    ((neonSysConstruct ⟨3, false, true⟩ ⟨none⟩).2.1 = true ∧
      CEffect.constructRun ∉ (neonSysConstruct ⟨3, false, true⟩ ⟨none⟩).2.2) := by
  have h1 := (construct_callback_decides_success ⟨3, true, false⟩ ⟨none⟩
    (by decide)).1 rfl
  have h2 := (construct_callback_decides_success ⟨3, false, true⟩ ⟨none⟩
    (by decide)).2 rfl
  exact ⟨⟨h1.2, h1.1⟩, ⟨h2.2, h2.1⟩⟩

/-- Once the registrations are gone, further finalization events change
nothing (the weak handle was cleared when the record was destroyed). -/
lemma gcRun_no_registrations (d : List Nat) (evs : List GCEvent) :
    gcRun ⟨[], d⟩ evs = ⟨[], d⟩ := by
  induction evs with
  | nil => rfl
  | cons e es ih =>
    cases e with
    | finalize o => simpa [gcRun, gcStep] using ih

/-- C7: for a successfully constructed instance (record `⟨p⟩` registered
for object `o`), any sequence of engine finalization events invokes the
drop callback on `p` exactly once if the weak callback for `o` fires, and
never otherwise — in particular never before the finalizer fires and
never a second time, even under spurious repeat events. -/
theorem drop_callback_exactly_once_at_finalization (o p : Nat)
    (evs : List GCEvent) :
    (gcRun (registerInstance o ⟨p⟩) evs).drops =
      (if GCEvent.finalize o ∈ evs then [p] else []) := by
  unfold registerInstance
  induction evs with
  | nil => simp [gcRun]
  | cons e es ih =>
    cases e with
    | finalize q =>
      by_cases hq : q = o
      · subst hq
        have hstep : gcStep ⟨[(q, p)], []⟩ (GCEvent.finalize q) =
            ⟨[], [p]⟩ := by
          simp [gcStep]
        simp only [gcRun, hstep, gcRun_no_registrations]
        simp
      · have hoq : (o == q) = false := by
          simp [Ne.symm hq]
        have hstep : gcStep ⟨[(o, p)], []⟩ (GCEvent.finalize q) =
            ⟨[(o, p)], []⟩ := by
          simp [gcStep, List.find?, hoq]
        simp only [gcRun, hstep, ih]
        have : GCEvent.finalize o ∈ GCEvent.finalize q :: es ↔
            GCEvent.finalize o ∈ es := by
          simp [Ne.symm hq]
        rw [if_congr this rfl rfl]

/-- The literal streamed into the call-error buffer contains no NUL, so
`operator<<` copies it whole. -/
lemma takeWhile_call_literal :
    " constructor called without new.".data.takeWhile
      (fun c => c ≠ Char.ofNat 0) = " constructor called without new.".data := by
  decide

/-- The literal streamed into the this-error buffer contains no NUL. -/
lemma takeWhile_this_literal :
    "this is not an object of type ".data.takeWhile
      (fun c => c ≠ Char.ofNat 0) = "this is not an object of type ".data := by
  decide

/-- The final period streamed into the this-error buffer is not a NUL. -/
lemma takeWhile_dot_literal :
    ".".data.takeWhile (fun c => c ≠ Char.ofNat 0) = ".".data := by
  decide

/-- C8: `SetName(n)` precomputes the two error strings at name-set time:
the call error is exactly `n ++ " constructor called without new."` and
the this error exactly `"this is not an object of type " ++ n ++ "."`,
each written content exactly filling its allocated buffer (no truncation,
no trailing garbage), so the borrow used by the later throw paths yields
exactly these strings without recomputation. -/
theorem setName_precomputes_error_strings (name : List Char) :
    (setName name).callError.written =
      name ++ " constructor called without new.".data ∧
    (setName name).callError.written.length = (setName name).callError.capacity ∧
    (setName name).thisError.written =
      "this is not an object of type ".data ++ (name ++ ".".data) ∧
    (setName name).thisError.written.length = (setName name).thisError.capacity ∧
    (setName name).className.written = name ∧
    (setName name).className.written.length = (setName name).className.capacity ∧
    getCallError (setName name) =
      some (name ++ " constructor called without new.".data) ∧
    getThisError (setName name) =
      some ("this is not an object of type ".data ++ (name ++ ".".data)) := by
  have hcallw : (setName name).callError.written =
      name ++ " constructor called without new.".data := by
    simp [setName, appendCStr, appendSlice, neonStringNew, takeWhile_call_literal]
  have hcallcap : (setName name).callError.capacity =
      " constructor called without new.".data.length + name.length := by
    simp [setName, appendCStr, appendSlice, neonStringNew, String.length]
  have hcalllen : (setName name).callError.written.length =
      (setName name).callError.capacity := by
    rw [hcallw, hcallcap]
    simp [List.length_append]
    omega
  have hthisw : (setName name).thisError.written =
      "this is not an object of type ".data ++ (name ++ ".".data) := by
    simp [setName, appendCStr, appendSlice, neonStringNew,
      takeWhile_this_literal, takeWhile_dot_literal]
  have hthiscap : (setName name).thisError.capacity =
      "this is not an object of type .".data.length + name.length := by
    simp [setName, appendCStr, appendSlice, neonStringNew, String.length]
  have hthislen : (setName name).thisError.written.length =
      (setName name).thisError.capacity := by
    rw [hthisw, hthiscap]
    have h31 : "this is not an object of type .".data.length = 31 := by decide
    have h30 : "this is not an object of type ".data.length = 30 := by decide
    have h1 : ".".data.length = 1 := by decide
    simp [List.length_append, h31, h30, h1]
    omega
  have hnamew : (setName name).className.written = name := by
    simp [setName, appendSlice, neonStringNew]
  have hnamelen : (setName name).className.written.length =
      (setName name).className.capacity := by
    rw [hnamew]
    simp [setName, appendSlice, neonStringNew]
  refine ⟨hcallw, hcalllen, hthisw, hthislen, hnamew, hnamelen, ?_, ?_⟩
  · rw [getCallError, borrow, if_pos hcalllen, hcallw]
  · rw [getThisError, borrow, if_pos hthislen, hthisw]

/-- C9: `Neon_Mem_SameHandle` is identity comparison: every handle is
the same as itself, and handles to objects at distinct addresses compare
unequal regardless of the structural contents of the objects. -/
theorem sameHandle_is_identity (h a b : JsHeapObject) :
    sameHandle h h = true ∧
    (a.objId ≠ b.objId → sameHandle a b = false) := by
  constructor
  · simp [sameHandle]
  · intro hne
    simp [sameHandle, hne]

/-- Witness for C9: a handle equals itself, and two structurally
identical objects at different addresses compare unequal. -/
theorem sameHandle_is_identity_witness :
    sameHandle ⟨0, [1, 2]⟩ ⟨0, [1, 2]⟩ = true ∧
    sameHandle ⟨1, [1, 2]⟩ ⟨2, [1, 2]⟩ = false :=
  ⟨(sameHandle_is_identity ⟨0, [1, 2]⟩ ⟨1, [1, 2]⟩ ⟨2, [1, 2]⟩).1,
   (sameHandle_is_identity ⟨0, [1, 2]⟩ ⟨1, [1, 2]⟩ ⟨2, [1, 2]⟩).2 (by decide)⟩

end Neon
